import Mathlib

/-!
Shallow embedding of the per-tick decision policy of `src/skeleton-bot.js`
(the developed variant, the second `bots.push` entry) and proofs of the
testable properties stated for it.

Modelling conventions:
* JS numbers are modelled as exact rationals (`ℚ`); numeric literals of the
  source (`0.6`, `0.0001`, …) become the corresponding rationals.
* `Math.PI` is the value of the IEEE-754 double constant, an explicit
  rational (`jsPI`).
* The opaque host math routines `Math.hypot`, `Math.atan2`, `Math.cos`,
  `Math.sin` are abstracted as a parameter record `MathOps`; every theorem
  quantifies over it (or instantiates it, for concrete runs).
* `Math.random()` is a parameter `rand : ℚ`; the source compares it with `0.5`.
* The world helpers (`getDistanceToTarget`, `shootAt`, `directionTo`,
  `directionAwayFrom`) are function-valued fields of the snapshot, exactly as
  the host passes them in.
* The per-instance memory `this._memory` is explicit state: the entry point
  takes the previous memory (`none` on the first tick, matching the
  `if (!this._memory)` initialisation) and returns the updated one.
* `null`/`undefined` action fields are `Option.none`; the JS truthiness test
  `!action.moveDirection` is `isFalsyNum`, which is also true for the
  number `0`.
-/

namespace SkeletonBot

/-- Stat block of a robot (`stats` in the source). -/
structure Stats where
  speed : ℚ
  strength : ℚ
  health : ℚ
  range : ℚ
deriving DecidableEq

/-- `world.self` of the snapshot. -/
structure SelfState where
  x : ℚ
  y : ℚ
  hp : ℚ
  canShoot : Bool
  canShield : Bool
  shootingState : String
  stats : Stats
  range : ℚ
deriving DecidableEq

/-- One entry of `world.enemies`. -/
structure Enemy where
  x : ℚ
  y : ℚ
  hp : ℚ
  stats : Stats
deriving DecidableEq

/-- One entry of `world.bullets`. -/
structure Bullet where
  x : ℚ
  y : ℚ
  vx : ℚ
  vy : ℚ
  damage : ℚ
  maxRange : ℚ
  traveledDistance : ℚ
  life : ℚ
  speed : ℚ
deriving DecidableEq

/-- `world.map`: the axis-aligned arena rectangle. -/
structure Arena where
  width : ℚ
  height : ℚ
  x : ℚ
  y : ℚ
deriving DecidableEq

/-- The world snapshot passed to `action`, including the host-provided
helper functions carried on the world object. -/
structure World where
  self : SelfState
  enemies : List Enemy
  bullets : List Bullet
  map : Arena
  tick : ℕ
  getDistanceToTarget : ℚ → ℚ → ℚ
  shootAt : ℚ → ℚ → ℚ
  directionTo : ℚ → ℚ → ℚ
  directionAwayFrom : ℚ → ℚ → ℚ

/-- The action draft returned each tick.  `moveDirection = none` is the hold
sentinel (`null`); `shoot = none` means do not fire (`undefined`/`null`). -/
structure Action where
  moveDirection : Option ℚ
  shoot : Option ℚ
  shield : Bool
deriving DecidableEq

/-- `this._memory` of the bot instance. -/
structure Memory where
  lastDodgeTick : ℤ
  facingDirection : ℚ
deriving DecidableEq

/-- The opaque host math routines used by the policy. -/
structure MathOps where
  hypot : ℚ → ℚ → ℚ
  atan2 : ℚ → ℚ → ℚ
  cos : ℚ → ℚ
  sin : ℚ → ℚ

/-- The IEEE-754 double value of `Math.PI`, as an exact rational. -/
def jsPI : ℚ := 884279719003555 / 281474976710656

/-- First loop of `normalizeAngle`: `while (a > Math.PI) a -= Math.PI * 2`. -/
def normAngleDown (a : ℚ) : ℚ :=
  if h : jsPI < a then normAngleDown (a - jsPI * 2) else a
termination_by (Int.ceil ((a - jsPI) / (jsPI * 2))).toNat
decreasing_by
  have hpi : (0 : ℚ) < jsPI * 2 := by norm_num [jsPI]
  have hq : (0 : ℚ) < (a - jsPI) / (jsPI * 2) := by
    apply div_pos _ hpi
    linarith
  have h1 : (1 : ℤ) ≤ Int.ceil ((a - jsPI) / (jsPI * 2)) := Int.ceil_pos.mpr hq
  have h2 : Int.ceil ((a - jsPI * 2 - jsPI) / (jsPI * 2))
      = Int.ceil ((a - jsPI) / (jsPI * 2)) - 1 := by
    have hx : (a - jsPI * 2 - jsPI) / (jsPI * 2)
        = (a - jsPI) / (jsPI * 2) - 1 := by
      field_simp
      ring
    rw [hx, Int.ceil_sub_one]
  omega

/-- Second loop of `normalizeAngle`: `while (a < -Math.PI) a += Math.PI * 2`. -/
def normAngleUp (a : ℚ) : ℚ :=
  if h : a < -jsPI then normAngleUp (a + jsPI * 2) else a
termination_by (Int.ceil ((-jsPI - a) / (jsPI * 2))).toNat
decreasing_by
  have hpi : (0 : ℚ) < jsPI * 2 := by norm_num [jsPI]
  have hq : (0 : ℚ) < (-jsPI - a) / (jsPI * 2) := by
    apply div_pos _ hpi
    linarith
  have h1 : (1 : ℤ) ≤ Int.ceil ((-jsPI - a) / (jsPI * 2)) := Int.ceil_pos.mpr hq
  have h2 : Int.ceil ((-jsPI - (a + jsPI * 2)) / (jsPI * 2))
      = Int.ceil ((-jsPI - a) / (jsPI * 2)) - 1 := by
    have hx : (-jsPI - (a + jsPI * 2)) / (jsPI * 2)
        = (-jsPI - a) / (jsPI * 2) - 1 := by
      field_simp
      ring
    rw [hx, Int.ceil_sub_one]
  omega

/-- `normalizeAngle` of the source: run the decreasing loop, then the
increasing one. -/
def normalizeAngle (a : ℚ) : ℚ := normAngleUp (normAngleDown a)

/-- The escape-candidate sweep
`for (let angleOffset = -Math.PI/2; angleOffset <= Math.PI/2; angleOffset += Math.PI/6)`:
the list of offsets visited from a given start. -/
def sweepLoop (angleOffset : ℚ) : List ℚ :=
  if h : angleOffset ≤ jsPI / 2 then
    angleOffset :: sweepLoop (angleOffset + jsPI / 6)
  else []
termination_by (Int.ceil ((jsPI / 2 - angleOffset) / (jsPI / 6)) + 1).toNat
decreasing_by
  have hpi : (0 : ℚ) < jsPI / 6 := by norm_num [jsPI]
  have hq : (0 : ℚ) ≤ (jsPI / 2 - angleOffset) / (jsPI / 6) := by
    apply div_nonneg _ (le_of_lt hpi)
    linarith
  have h1 : (0 : ℤ) ≤ Int.ceil ((jsPI / 2 - angleOffset) / (jsPI / 6)) :=
    Int.ceil_nonneg hq
  have h2 : Int.ceil ((jsPI / 2 - (angleOffset + jsPI / 6)) / (jsPI / 6))
      = Int.ceil ((jsPI / 2 - angleOffset) / (jsPI / 6)) - 1 := by
    have hx : (jsPI / 2 - (angleOffset + jsPI / 6)) / (jsPI / 6)
        = (jsPI / 2 - angleOffset) / (jsPI / 6) - 1 := by
      have hne : jsPI ≠ 0 := by norm_num [jsPI]
      field_simp
      ring
    rw [hx, Int.ceil_sub_one]
  omega

/-- All angle offsets the sweep visits (the loop starts at `-Math.PI/2`). -/
def sweepOffsets : List ℚ := sweepLoop (-(jsPI / 2))

/-- `canShootAtAngle` of the source: within the 180-degree forward arc, and
all angles are permitted when no facing direction is recorded. -/
def canShootAtAngle (shootAngle : ℚ) (robotFacingAngle : Option ℚ) : Bool :=
  match robotFacingAngle with
  | none => true
  | some f => decide (|normalizeAngle (shootAngle - f)| ≤ jsPI / 2)

/-- `const bs = bullet.speed || Math.hypot(bullet.vx, bullet.vy) || 0.0001`:
the bullet speed used as divisor, with JS falsiness on `0`. -/
def bulletSpeed (ops : MathOps) (bullet : Bullet) : ℚ :=
  if bullet.speed ≠ 0 then bullet.speed
  else if ops.hypot bullet.vx bullet.vy ≠ 0 then ops.hypot bullet.vx bullet.vy
  else 1 / 10000

/-- The along-track component of the robot position relative to a bullet,
as computed inside the threat map of the source. -/
def alongOf (ops : MathOps) (self : SelfState) (bullet : Bullet) : ℚ :=
  let bs := bulletSpeed ops bullet
  (self.x - bullet.x) * (bullet.vx / bs) + (self.y - bullet.y) * (bullet.vy / bs)

/-- A per-bullet threat assessment (the object literal built inside
`bullets.map` in the source). -/
structure Threat where
  bullet : Bullet
  perpDist : ℚ
  tti : ℚ
  threatScore : ℚ
  bulletAngle : ℚ
  along : ℚ
deriving DecidableEq

/-- The body of `bullets.map(bullet => ...)` in the source: `none` exactly
when `along <= 0` (the bullet is not coming toward the robot). -/
def assessBullet (ops : MathOps) (self : SelfState) (bullet : Bullet) : Option Threat :=
  let bs := bulletSpeed ops bullet
  let ux := bullet.vx / bs
  let uy := bullet.vy / bs
  let rx := self.x - bullet.x
  let ry := self.y - bullet.y
  let along := rx * ux + ry * uy
  if along ≤ 0 then none
  else
    let px := rx - ux * along
    let py := ry - uy * along
    let perpDist := ops.hypot px py
    let tti := along / bs
    let threatScore := perpDist + tti * 2
    some ⟨bullet, perpDist, tti, threatScore, ops.atan2 bullet.vy bullet.vx, along⟩

/-- `threats` of the source before sorting: map every bullet and drop the
`null` entries. -/
def threats (ops : MathOps) (self : SelfState) (bullets : List Bullet) : List Threat :=
  (bullets.map (assessBullet ops self)).filterMap id

/-- `threats.sort((a, b) => a.threatScore - b.threatScore)`: the stable
ascending sort by threat score (JS array sort is stable). -/
def sortedThreats (ops : MathOps) (self : SelfState) (bullets : List Bullet) : List Threat :=
  (threats ops self bullets).mergeSort fun a b => decide (a.threatScore ≤ b.threatScore)

/-- `const baseTimeThreshold = 25 + Math.max(0, 8 - self.stats.speed) * 3`. -/
def baseTimeThreshold (self : SelfState) : ℚ := 25 + max 0 (8 - self.stats.speed) * 3

/-- `const baseDodgeDistance = 60 + self.stats.speed * 5`. -/
def baseDodgeDistance (self : SelfState) : ℚ := 60 + self.stats.speed * 5

/-- `const emergencyTimeThreshold = 15`. -/
def emergencyTimeThreshold : ℚ := 15

/-- `threats.find(t => t.perpDist < baseDodgeDistance && t.tti < baseTimeThreshold)`
over the sorted threat list. -/
def primaryThreat (ops : MathOps) (self : SelfState) (bullets : List Bullet) : Option Threat :=
  (sortedThreats ops self bullets).find? fun t =>
    decide (t.perpDist < baseDodgeDistance self) && decide (t.tti < baseTimeThreshold self)

/-- `isValidEscape` of the source: the projected point is strictly inside the
arena shrunk by the 30-unit wall buffer. -/
def isValidEscape (map : Arena) (escapeX escapeY : ℚ) : Bool :=
  let wallBuffer : ℚ := 30
  decide (escapeX > map.x + wallBuffer) &&
  decide (escapeX < map.x + map.width - wallBuffer) &&
  decide (escapeY > map.y + wallBuffer) &&
  decide (escapeY < map.y + map.height - wallBuffer)

/-- One entry of the `escapeVectors` array of the source. -/
structure EscapeVector where
  angle : ℚ
  score : ℚ
deriving DecidableEq

/-- One iteration of the escape sweep: project 100 units ahead, keep the
candidate only if it passes `isValidEscape`, and score it against the top
three threats plus the arena-center alignment bonus. -/
def escapeCandidate (ops : MathOps) (w : World) (ts : List Threat)
    (escapeAngle : ℚ) : Option EscapeVector :=
  let self := w.self
  let escapeX := self.x + ops.cos escapeAngle * 100
  let escapeY := self.y + ops.sin escapeAngle * 100
  if isValidEscape w.map escapeX escapeY then
    let escapeScore := (ts.take 3).foldl (fun acc threat =>
      let futureX := self.x + ops.cos escapeAngle * threat.tti * self.stats.speed * 10
      let futureY := self.y + ops.sin escapeAngle * threat.tti * self.stats.speed * 10
      acc + ops.hypot (futureX - threat.bullet.x) (futureY - threat.bullet.y)) 0
    let centerX := w.map.x + w.map.width / 2
    let centerY := w.map.y + w.map.height / 2
    let angleToCenter := ops.atan2 (centerY - self.y) (centerX - self.x)
    let centerAlignment := 1 / (1 + |normalizeAngle (escapeAngle - angleToCenter)|)
    some ⟨escapeAngle, escapeScore + centerAlignment * 50⟩
  else none

/-- The `escapeVectors` array of the source for a given primary threat: the
sweep offsets around the bullet angle of the threat, filtered by wall
validity. -/
def escapeVectors (ops : MathOps) (w : World) (ts : List Threat)
    (pt : Threat) : List EscapeVector :=
  sweepOffsets.filterMap fun angleOffset =>
    escapeCandidate ops w ts (pt.bulletAngle + angleOffset)

/-- Source block 1 ("Enhanced multi-bullet dodging system"): returns the
`moveDirection` override and the `shield` flag.  The best escape vector is
the head of the stable descending sort by score
(`escapeVectors.sort((a, b) => b.score - a.score)` then `[0]`). -/
def evadeStage (ops : MathOps) (w : World) : Option ℚ × Bool :=
  if w.bullets.length > 0 then
    match primaryThreat ops w.self w.bullets with
    | some pt =>
      let evs := escapeVectors ops w (sortedThreats ops w.self w.bullets) pt
      match (evs.mergeSort fun a b => decide (b.score ≤ a.score)).head? with
      | some best =>
          (some best.angle, w.self.canShield && decide (pt.tti < emergencyTimeThreshold))
      | none => (none, false)
    | none => (none, false)
  else (none, false)

/-- JS falsiness of an optional number: `null`/`undefined` and `0` are falsy.
This is the test `!action.moveDirection` of the source. -/
def isFalsyNum : Option ℚ → Bool
  | none => true
  | some v => decide (v = 0)

/-- Loop body of source block 2: keep the strictly closer enemy
(`if (d < closestDist) { closestDist = d; target = enemies[i]; }`). -/
def selectStep (w : World) (acc : Option Enemy × Option ℚ) (e : Enemy) :
    Option Enemy × Option ℚ :=
  let d := w.getDistanceToTarget e.x e.y
  match acc.2 with
  | none => (some e, some d)
  | some closestDist => if d < closestDist then (some e, some d) else acc

/-- Source block 2 ("Target selection - just pick closest enemy"): the strict
`d < closestDist` loop starting from `closestDist = Infinity` (modelled as
`none`, which every number compares below). -/
def selectTarget (w : World) : Option Enemy :=
  if w.enemies.length > 0 then
    (w.enemies.foldl (selectStep w) ((none : Option Enemy), (none : Option ℚ))).1
  else none

/-- The distance the selection loop computes for an enemy. -/
def distTo (w : World) (e : Enemy) : ℚ := w.getDistanceToTarget e.x e.y

/-- Source block 3 ("Strategic positioning considering shooting
constraints"): runs only when `!action.moveDirection && target`. -/
def positionStage (w : World) (rand : ℚ) (mem : Memory)
    (tgt : Option Enemy) (md : Option ℚ) : Option ℚ :=
  match tgt with
  | some target =>
    if isFalsyNum md then
      let d := w.getDistanceToTarget target.x target.y
      let targetAngle := w.directionTo target.x target.y
      let shootAngle := w.shootAt target.x target.y
      let canShootTarget := canShootAtAngle shootAngle (some mem.facingDirection)
      if d < w.self.range * (6 / 10) then some targetAngle
      else if d > w.self.range * (9 / 10) then some targetAngle
      else if !canShootTarget then
        some (targetAngle + (if rand > 5 / 10 then jsPI / 2 else -(jsPI / 2)))
      else md
    else md
  | none => md

/-- Source block 5 ("Shooting - only when safe and in good position"). -/
def shootStage (w : World) (mem : Memory) (tgt : Option Enemy) : Option ℚ :=
  match tgt with
  | some target =>
    if w.self.canShoot then
      let d := w.getDistanceToTarget target.x target.y
      if d ≤ w.self.range then
        let shootAngle := w.shootAt target.x target.y
        if canShootAtAngle shootAngle (some mem.facingDirection) then some shootAngle
        else none
      else none
    else none
  | none => none

/-- The shooting-animation lock test of source block 6. -/
def isBusyShooting (s : String) : Bool :=
  s == "preparing" || s == "shooting" || s == "recovering"

/-- The memory created by `if (!this._memory) this._memory = {...}`. -/
def initMemory : Memory := { lastDodgeTick := -1, facingDirection := 0 }

/-- The whole `action(world)` entry point of the developed variant: evasion,
target selection, positioning, shooting, animation lock, facing update.
Returns the action draft together with the updated memory. -/
def action (ops : MathOps) (rand : ℚ) (memIn : Option Memory) (w : World) :
    Action × Memory :=
  let mem := memIn.getD initMemory
  let evaded := evadeStage ops w
  let tgt := selectTarget w
  let md3 := positionStage w rand mem tgt evaded.1
  let shoot := shootStage w mem tgt
  let mdFinal := if isBusyShooting w.self.shootingState then none else md3
  let memOut :=
    match mdFinal with
    | some v => { mem with facingDirection := v }
    | none => mem
  ({ moveDirection := mdFinal, shoot := shoot, shield := evaded.2 }, memOut)

/-! ### Concrete fixtures used by the closed-instance runs below -/

/-- The stat block recommended in the source header comment. -/
def testStats : Stats := { speed := 5, strength := 2, health := 3, range := 5 }

/-- A concrete host-math instance: taxicab `hypot` (it agrees with the
Euclidean norm at the axis-aligned points used below) and zero angles; the
cosine is `0` at angle `0` and large elsewhere, so exactly one escape
candidate survives the wall filter. -/
def opsOne : MathOps where
  hypot := fun x y => |x| + |y|
  atan2 := fun _ _ => 0
  cos := fun a => if a = 0 then 0 else 10
  sin := fun _ => 0

/-- Like `opsOne` but the cosine vanishes at `jsPI / 6` instead of `0`, so
the single surviving escape candidate has a nonzero heading. -/
def opsShift : MathOps where
  hypot := fun x y => |x| + |y|
  atan2 := fun _ _ => 0
  cos := fun a => if a = jsPI / 6 then 0 else 10
  sin := fun _ => 0

/-- A bullet 20 units to the left of the robot at `(500, 500)`, flying right
at unit speed: `along = 20`, `perpDist = 0`, `tti = 20`. -/
def bulletIdle : Bullet :=
  { x := 480, y := 500, vx := 1, vy := 0, damage := 5, maxRange := 500,
    traveledDistance := 20, life := 100, speed := 1 }

/-- `bulletIdle` flying away from the robot instead of toward it. -/
def bulletAway : Bullet := { bulletIdle with vx := -1 }

/-- A stationary bullet (zero velocity and zero reported speed). -/
def bulletZero : Bullet :=
  { x := 0, y := 0, vx := 0, vy := 0, damage := 0, maxRange := 0,
    traveledDistance := 0, life := 0, speed := 0 }

/-- The threat assessment `assessBullet` produces for `bulletIdle` as seen
from `(500, 500)` under `opsOne`. -/
def threatIdle : Threat :=
  { bullet := bulletIdle, perpDist := 0, tti := 20, threatScore := 40,
    bulletAngle := 0, along := 20 }

/-- Robot in the middle of a 1000-by-1000 arena, idle. -/
def selfIdle : SelfState :=
  { x := 500, y := 500, hp := 100, canShoot := false, canShield := false,
    shootingState := "idle", stats := testStats, range := 100 }

/-- Snapshot with one incoming bullet, no enemies, robot idle at the arena
center. -/
def wIdle : World where
  self := selfIdle
  enemies := []
  bullets := [bulletIdle]
  map := { width := 1000, height := 1000, x := 0, y := 0 }
  tick := 0
  getDistanceToTarget := fun x y => |x - 500| + |y - 500|
  shootAt := fun _ _ => 0
  directionTo := fun _ _ => 0
  directionAwayFrom := fun _ _ => 0

/-- `wIdle` with the robot in the middle of its shooting animation. -/
def wBusy : World :=
  { wIdle with self := { selfIdle with shootingState := "preparing" } }

/-- An enemy 50 units to the left of the robot at `(100, 100)`. -/
def enemyBehind : Enemy := { x := 50, y := 100, hp := 100, stats := testStats }

/-- First-tick snapshot with one enemy behind the robot: the host bearing to
it (`3.14` here) deviates from angle `0` by more than a quarter turn. -/
def wBehind : World where
  self := { x := 100, y := 100, hp := 100, canShoot := true, canShield := false,
            shootingState := "idle", stats := testStats, range := 100 }
  enemies := [enemyBehind]
  bullets := []
  map := { width := 1000, height := 1000, x := 0, y := 0 }
  tick := 0
  getDistanceToTarget := fun _ _ => 50
  shootAt := fun _ _ => 157 / 50
  directionTo := fun _ _ => 157 / 50
  directionAwayFrom := fun _ _ => 0

/-- An enemy 50 units below the robot at `(500, 500)`. -/
def enemyBelow : Enemy := { x := 500, y := 550, hp := 100, stats := testStats }

/-- `wIdle` plus a close enemy below the robot; the host bearing to it is
`1.57` (a quarter turn). -/
def wClose : World :=
  { wIdle with enemies := [enemyBelow], directionTo := fun _ _ => 157 / 100 }

/-! ### General lemmas about the embedded pipeline -/

theorem normalizeAngle_id (a : ℚ) (h1 : ¬ jsPI < a) (h2 : ¬ a < -jsPI) :
    normalizeAngle a = a := by
  rw [normalizeAngle, normAngleDown, dif_neg h1, normAngleUp, dif_neg h2]

theorem sweepOffsets_eval :
    sweepOffsets = [-(jsPI/2), -(jsPI/3), -(jsPI/6), 0, jsPI/6, jsPI/3, jsPI/2] := by
  rw [sweepOffsets]
  repeat first
  | rfl
  | (rw [sweepLoop]; norm_num [jsPI])

theorem assessBullet_eq_some (ops : MathOps) (self : SelfState) (b : Bullet) (t : Threat)
    (h : assessBullet ops self b = some t) :
    t.bullet = b ∧ 0 < t.along ∧ t.along = alongOf ops self b := by
  simp only [assessBullet] at h
  split at h
  · exact absurd h (by simp)
  · injection h with h
    subst h
    refine ⟨rfl, by linarith [not_le.mp (by assumption)], ?_⟩
    simp [alongOf]

theorem assessBullet_eq_none (ops : MathOps) (self : SelfState) (b : Bullet)
    (h : alongOf ops self b ≤ 0) : assessBullet ops self b = none := by
  simp only [assessBullet]
  split
  · rfl
  · exact absurd (by simpa [alongOf] using h) (by assumption)

theorem mem_threats (ops : MathOps) (self : SelfState) (bullets : List Bullet) (t : Threat) :
    t ∈ threats ops self bullets ↔ ∃ b ∈ bullets, assessBullet ops self b = some t := by
  simp [threats, List.mem_filterMap]

theorem mem_sortedThreats (ops : MathOps) (self : SelfState) (bullets : List Bullet) (t : Threat) :
    t ∈ sortedThreats ops self bullets ↔ t ∈ threats ops self bullets := by
  rw [sortedThreats]
  exact List.mem_mergeSort

theorem primaryThreat_eq_some (ops : MathOps) (self : SelfState) (bullets : List Bullet)
    (t : Threat) (h : primaryThreat ops self bullets = some t) :
    (∃ b ∈ bullets, assessBullet ops self b = some t) ∧
      t.perpDist < baseDodgeDistance self ∧ t.tti < baseTimeThreshold self := by
  rw [primaryThreat] at h
  have hmem := List.mem_of_find?_eq_some h
  have hp := List.find?_some h
  rw [mem_sortedThreats, mem_threats] at hmem
  simp only [Bool.and_eq_true, decide_eq_true_eq] at hp
  exact ⟨hmem, hp⟩

theorem primaryThreat_isSome (ops : MathOps) (self : SelfState) (bullets : List Bullet)
    (t : Threat) (hmem : t ∈ threats ops self bullets)
    (h1 : t.perpDist < baseDodgeDistance self) (h2 : t.tti < baseTimeThreshold self) :
    ∃ pt, primaryThreat ops self bullets = some pt := by
  have : ((sortedThreats ops self bullets).find? fun t =>
      decide (t.perpDist < baseDodgeDistance self) &&
        decide (t.tti < baseTimeThreshold self)).isSome := by
    rw [List.find?_isSome]
    exact ⟨t, (mem_sortedThreats ops self bullets t).mpr hmem, by simp [h1, h2]⟩
  rw [primaryThreat]
  exact Option.isSome_iff_exists.mp this

theorem escapeVectors_valid (ops : MathOps) (w : World) (ts : List Threat) (pt : Threat)
    (ev : EscapeVector) (h : ev ∈ escapeVectors ops w ts pt) :
    isValidEscape w.map (w.self.x + ops.cos ev.angle * 100)
      (w.self.y + ops.sin ev.angle * 100) = true := by
  rw [escapeVectors, List.mem_filterMap] at h
  obtain ⟨off, -, hoff⟩ := h
  simp only [escapeCandidate] at hoff
  split at hoff
  · injection hoff with hoff
    subst hoff
    assumption
  · exact absurd hoff (by simp)

theorem evadeStage_sets_move (ops : MathOps) (w : World) (θ : ℚ)
    (h : (evadeStage ops w).1 = some θ) :
    ∃ pt best, primaryThreat ops w.self w.bullets = some pt ∧
      best ∈ escapeVectors ops w (sortedThreats ops w.self w.bullets) pt ∧
      θ = best.angle := by
  simp only [evadeStage] at h
  split at h
  · split at h
    next pt hpt =>
      split at h
      next best hbest =>
        refine ⟨pt, best, hpt, ?_, by simpa using h.symm⟩
        have hmem2 : best ∈ (escapeVectors ops w (sortedThreats ops w.self w.bullets) pt).mergeSort
            fun a b => decide (b.score ≤ a.score) :=
          List.mem_of_mem_head? (by simp [hbest])
        exact List.mem_mergeSort.mp hmem2
      next => simp at h
    next => simp at h
  · simp at h

theorem positionStage_isSome (w : World) (rand : ℚ) (mem : Memory) (tgt : Option Enemy)
    (v : ℚ) : ∃ u, positionStage w rand mem tgt (some v) = some u := by
  cases tgt with
  | none => exact ⟨v, by simp only [positionStage]⟩
  | some t =>
    simp only [positionStage]
    split
    · split
      · exact ⟨_, rfl⟩
      · split
        · exact ⟨_, rfl⟩
        · split
          · exact ⟨_, rfl⟩
          · exact ⟨v, rfl⟩
    · exact ⟨v, rfl⟩

theorem selectStep_none (w : World) (a : Option Enemy) (e : Enemy) :
    selectStep w (a, none) e = (some e, some (distTo w e)) := rfl

theorem selectStep_some (w : World) (b : Enemy) (cd : ℚ) (e : Enemy) :
    selectStep w (some b, some cd) e =
      if distTo w e < cd then (some e, some (distTo w e)) else (some b, some cd) := rfl

theorem selectFold_spec (w : World) (l : List Enemy) :
    ∀ b : Enemy,
      ∃ t : Enemy,
        l.foldl (selectStep w) (some b, some (distTo w b)) = (some t, some (distTo w t)) ∧
        ((t = b ∧ ∀ e ∈ l, distTo w b ≤ distTo w e) ∨
         (∃ l1 l2, l = l1 ++ t :: l2 ∧ distTo w t < distTo w b ∧
            (∀ e ∈ l1, distTo w t < distTo w e) ∧ (∀ e ∈ l2, distTo w t ≤ distTo w e))) := by
  induction l with
  | nil =>
    intro b
    exact ⟨b, rfl, Or.inl ⟨rfl, by simp⟩⟩
  | cons e rest ih =>
    intro b
    rw [List.foldl_cons, selectStep_some]
    by_cases hlt : distTo w e < distTo w b
    · rw [if_pos hlt]
      obtain ⟨t, heq, hc⟩ := ih e
      refine ⟨t, heq, Or.inr ?_⟩
      rcases hc with ⟨rfl, hall⟩ | ⟨l1, l2, hsplit, hlt2, hl1, hl2⟩
      · exact ⟨[], rest, by simp, hlt, by simp, hall⟩
      · refine ⟨e :: l1, l2, by rw [hsplit]; rfl, lt_trans hlt2 hlt, ?_, hl2⟩
        intro x hx
        rcases List.mem_cons.mp hx with rfl | hx
        · exact hlt2
        · exact hl1 x hx
    · rw [if_neg hlt]
      obtain ⟨t, heq, hc⟩ := ih b
      refine ⟨t, heq, ?_⟩
      rcases hc with ⟨rfl, hall⟩ | ⟨l1, l2, hsplit, hlt2, hl1, hl2⟩
      · refine Or.inl ⟨rfl, ?_⟩
        intro x hx
        rcases List.mem_cons.mp hx with rfl | hx
        · exact not_lt.mp hlt
        · exact hall x hx
      · refine Or.inr ⟨e :: l1, l2, by rw [hsplit]; rfl, hlt2, ?_, hl2⟩
        intro x hx
        rcases List.mem_cons.mp hx with rfl | hx
        · exact lt_of_lt_of_le hlt2 (not_lt.mp hlt)
        · exact hl1 x hx

theorem selectTarget_cons (w : World) (e : Enemy) (rest : List Enemy)
    (hw : w.enemies = e :: rest) :
    selectTarget w = (rest.foldl (selectStep w) (some e, some (distTo w e))).1 := by
  rw [selectTarget, hw]
  simp only [List.length_cons, List.foldl_cons]
  rw [if_pos (Nat.succ_pos _)]
  rfl

theorem evadeStage_shield_iff (ops : MathOps) (w : World) :
    (evadeStage ops w).2 = true ↔
      ∃ pt, primaryThreat ops w.self w.bullets = some pt ∧
        escapeVectors ops w (sortedThreats ops w.self w.bullets) pt ≠ [] ∧
        w.self.canShield = true ∧ pt.tti < emergencyTimeThreshold := by
  constructor
  · intro h
    simp only [evadeStage] at h
    split at h
    · split at h
      next pt hpt =>
        split at h
        next best hbest =>
          simp only [Bool.and_eq_true, decide_eq_true_eq] at h
          refine ⟨pt, hpt, ?_, h.1, h.2⟩
          intro hnil
          rw [hnil] at hbest
          simp at hbest
        next => simp at h
      next => simp at h
    · simp at h
  · rintro ⟨pt, hpt, hne, hcs, htti⟩
    have hbne : w.bullets ≠ [] := by
      intro h0
      rw [h0] at hpt
      simp [primaryThreat, sortedThreats, threats] at hpt
    have hlen : w.bullets.length > 0 := List.length_pos.mpr hbne
    obtain ⟨best, hbest⟩ : ∃ best,
        ((escapeVectors ops w (sortedThreats ops w.self w.bullets) pt).mergeSort
          fun a b => decide (b.score ≤ a.score)).head? = some best := by
      rcases hcase : (escapeVectors ops w (sortedThreats ops w.self w.bullets) pt).mergeSort
          fun a b => decide (b.score ≤ a.score) with _ | ⟨a, as⟩
      · exact absurd (List.Perm.nil_eq (hcase ▸ List.mergeSort_perm _ _)).symm hne
      · exact ⟨a, by simp [hcase]⟩
    simp only [evadeStage]
    rw [if_pos hlen, hpt]
    simp only [hbest]
    simp [hcs, htti]

/-- C1: whenever `shootingState` is one of the busy variants
(preparing/shooting/recovering), the returned draft has `moveDirection`
equal to the hold sentinel `none`, regardless of what the evasion and
positioning stages computed earlier in the call. -/
theorem busy_state_forces_hold (ops : MathOps) (rand : ℚ) (memIn : Option Memory)
    (w : World)
    (h : w.self.shootingState = "preparing" ∨ w.self.shootingState = "shooting" ∨
      w.self.shootingState = "recovering") :
    (action ops rand memIn w).1.moveDirection = none := by
  have hb : isBusyShooting w.self.shootingState = true := by
    rcases h with h | h | h <;> simp [isBusyShooting, h]
  simp [action, hb]

/-- C1 witness: a concrete busy snapshot holds position. -/
theorem busy_state_forces_hold_witness :
    (action opsOne 0 none wBusy).1.moveDirection = none :=
  busy_state_forces_hold opsOne 0 none wBusy (Or.inl rfl)

/-- C2: the policy is total (it always returns a draft and an updated
memory), the bullet-speed divisor is never zero, and a bullet whose velocity
and reported speed are all zero gets the epsilon floor `0.0001`. -/
theorem policy_total_and_speed_floored (ops : MathOps) (rand : ℚ)
    (memIn : Option Memory) (w : World) (h0 : ops.hypot 0 0 = 0) :
    (∃ a m, action ops rand memIn w = (a, m)) ∧
    (∀ b : Bullet, bulletSpeed ops b ≠ 0) ∧
    (∀ b : Bullet, b.speed = 0 → b.vx = 0 → b.vy = 0 →
      bulletSpeed ops b = 1 / 10000) := by
  refine ⟨⟨_, _, rfl⟩, ?_, ?_⟩
  · intro b
    rw [bulletSpeed]
    split
    · assumption
    · split
      · assumption
      · norm_num
  · intro b hs hx hy
    rw [bulletSpeed, hs, hx, hy]
    simp [h0]

/-- C2 witness: a concrete zero-velocity bullet gets speed `0.0001`. -/
theorem policy_total_and_speed_floored_witness :
    bulletSpeed opsOne bulletZero = 1 / 10000 :=
  (policy_total_and_speed_floored opsOne 0 none wIdle
    (by norm_num [opsOne])).2.2 bulletZero rfl rfl rfl

/-- C3: a bullet whose along-component is not positive contributes no threat
at all (its assessment is `null`), and the primary threat always has a
positive along-component; hence such a bullet is never selected as primary,
whatever the rest of the bullet list holds. -/
theorem along_nonpositive_never_primary (ops : MathOps) (self : SelfState)
    (bullets : List Bullet) :
    (∀ b : Bullet, alongOf ops self b ≤ 0 → assessBullet ops self b = none) ∧
    (∀ t : Threat, primaryThreat ops self bullets = some t →
      0 < t.along ∧ t.along = alongOf ops self t.bullet) := by
  refine ⟨fun b hb => assessBullet_eq_none ops self b hb, fun t ht => ?_⟩
  obtain ⟨⟨b, hbmem, hbt⟩, -, -⟩ := primaryThreat_eq_some ops self bullets t ht
  obtain ⟨hbull, hpos, halong⟩ := assessBullet_eq_some ops self b t hbt
  refine ⟨hpos, ?_⟩
  rw [hbull]
  exact halong

/-- C3 witness: a concrete away-flying bullet is assessed as no threat. -/
theorem along_nonpositive_never_primary_witness :
    assessBullet opsOne selfIdle bulletAway = none :=
  (along_nonpositive_never_primary opsOne selfIdle []).1 bulletAway
    (by norm_num [alongOf, bulletSpeed, bulletAway, bulletIdle, selfIdle])

/-- C10: the draft raises the shield exactly when shielding is available, a
primary threat exists with time-to-impact below the emergency threshold 15,
and at least one escape candidate survived the wall filter; in particular a
cornered robot (no surviving candidate) never shields. -/
theorem shield_iff_primary_and_escape (ops : MathOps) (rand : ℚ)
    (memIn : Option Memory) (w : World) :
    (action ops rand memIn w).1.shield = true ↔
      ∃ pt, primaryThreat ops w.self w.bullets = some pt ∧
        escapeVectors ops w (sortedThreats ops w.self w.bullets) pt ≠ [] ∧
        w.self.canShield = true ∧ pt.tti < emergencyTimeThreshold := by
  have hs : (action ops rand memIn w).1.shield = (evadeStage ops w).2 := by
    simp only [action]
  rw [hs, evadeStage_shield_iff]

/-- C10 witness: with no bullets the concrete snapshot never shields. -/
theorem shield_iff_primary_and_escape_witness :
    (action opsOne 0 none wBehind).1.shield = false := by
  cases hb : (action opsOne 0 none wBehind).1.shield with
  | false => rfl
  | true =>
    obtain ⟨pt, hpt, -⟩ := (shield_iff_primary_and_escape opsOne 0 none wBehind).mp hb
    simp [primaryThreat, sortedThreats, threats, wBehind] at hpt

/-- C4: whenever the evasion stage sets a movement heading, the position
projected 100 units ahead along that heading lies strictly inside the arena
rectangle shrunk by the 30-unit wall buffer on every side, for any arena
origin and size. -/
theorem chosen_escape_inside_wall_buffer (ops : MathOps) (w : World) (θ : ℚ)
    (h : (evadeStage ops w).1 = some θ) :
    w.map.x + 30 < w.self.x + ops.cos θ * 100 ∧
    w.self.x + ops.cos θ * 100 < w.map.x + w.map.width - 30 ∧
    w.map.y + 30 < w.self.y + ops.sin θ * 100 ∧
    w.self.y + ops.sin θ * 100 < w.map.y + w.map.height - 30 := by
  obtain ⟨pt, best, hpt, hmem, rfl⟩ := evadeStage_sets_move ops w θ h
  have hval := escapeVectors_valid ops w (sortedThreats ops w.self w.bullets) pt best hmem
  simp only [isValidEscape, Bool.and_eq_true, decide_eq_true_eq] at hval
  exact ⟨hval.1.1.1, hval.1.1.2, hval.1.2, hval.2⟩

/-- C4 witness: the concrete dodge run lands inside the buffered arena. -/
theorem chosen_escape_inside_wall_buffer_witness :
    wIdle.map.x + 30 < wIdle.self.x + opsOne.cos 0 * 100 ∧
    wIdle.self.x + opsOne.cos 0 * 100 < wIdle.map.x + wIdle.map.width - 30 ∧
    wIdle.map.y + 30 < wIdle.self.y + opsOne.sin 0 * 100 ∧
    wIdle.self.y + opsOne.sin 0 * 100 < wIdle.map.y + wIdle.map.height - 30 :=
  chosen_escape_inside_wall_buffer opsOne wIdle 0 (by
    rw [evadeStage]
    norm_num [wIdle, opsOne, primaryThreat, sortedThreats, threats, assessBullet,
      bulletSpeed, bulletIdle, selfIdle, testStats, baseDodgeDistance,
      baseTimeThreshold, List.find?, escapeVectors, sweepOffsets_eval,
      List.filterMap, escapeCandidate, isValidEscape, normalizeAngle_id, jsPI])

/-- C5: target acquisition yields no target exactly when the enemy list is
empty; a selected target is an element of the list at minimal selection
distance, and it is the first-encountered one among equally distant enemies;
and the selection reads only the enemy list and the distance helper, so
repeated evaluation on an unchanged list (whatever the evasion stage did)
returns the same target. -/
theorem target_selection_nearest_first_stable (w : World) :
    (selectTarget w = none ↔ w.enemies = []) ∧
    (∀ t : Enemy, selectTarget w = some t →
      (∀ e ∈ w.enemies, distTo w t ≤ distTo w e) ∧
      ∃ l1 l2, w.enemies = l1 ++ t :: l2 ∧ ∀ e ∈ l1, distTo w t < distTo w e) ∧
    (∀ w2 : World, w.enemies = w2.enemies →
      w.getDistanceToTarget = w2.getDistanceToTarget →
      selectTarget w = selectTarget w2) := by
  refine ⟨?_, ?_, ?_⟩
  · rcases hcase : w.enemies with _ | ⟨e, rest⟩
    · simp [selectTarget, hcase]
    · obtain ⟨t, heq, -⟩ := selectFold_spec w rest e
      have hsel : selectTarget w = some t := by
        rw [selectTarget_cons w e rest hcase, heq]
      simp [hsel, hcase]
  · intro t2 ht2
    rcases hcase : w.enemies with _ | ⟨e, rest⟩
    · rw [selectTarget, hcase] at ht2
      simp at ht2
    · obtain ⟨t, heq, hc⟩ := selectFold_spec w rest e
      have hsel : selectTarget w = some t := by
        rw [selectTarget_cons w e rest hcase, heq]
      have htt : t2 = t := by
        rw [hsel] at ht2
        exact (Option.some_inj.mp ht2).symm
      subst htt
      rcases hc with ⟨rfl, hall⟩ | ⟨l1, l2, hsplit, hlt, hl1, hl2⟩
      · constructor
        · intro x hx
          rcases List.mem_cons.mp hx with rfl | hx
          · exact le_refl _
          · exact hall x hx
        · exact ⟨[], rest, rfl, by simp⟩
      · constructor
        · intro x hx
          rw [hsplit] at hx
          rcases List.mem_cons.mp hx with rfl | hx
          · exact le_of_lt hlt
          · rcases List.mem_append.mp hx with hx | hx
            · exact le_of_lt (hl1 x hx)
            · rcases List.mem_cons.mp hx with rfl | hx
              · exact le_refl _
              · exact hl2 x hx
        · refine ⟨e :: l1, l2, by rw [hsplit]; rfl, ?_⟩
          intro x hx
          rcases List.mem_cons.mp hx with rfl | hx
          · exact hlt
          · exact hl1 x hx
  · intro w2 h1 h2
    have hstep : selectStep w = selectStep w2 := by
      funext acc e
      simp only [selectStep, h2]
    rw [selectTarget, selectTarget, h1, hstep]

/-- C5 witness: on a concrete one-enemy snapshot the selected target is the
enemy, at minimal distance and first in order. -/
theorem target_selection_nearest_first_stable_witness :
    (∀ e ∈ wBehind.enemies, distTo wBehind enemyBehind ≤ distTo wBehind e) ∧
    ∃ l1 l2, wBehind.enemies = l1 ++ enemyBehind :: l2 ∧
      ∀ e ∈ l1, distTo wBehind enemyBehind < distTo wBehind e :=
  (target_selection_nearest_first_stable wBehind).2.1 enemyBehind
    (by norm_num [selectTarget, selectStep, wBehind, enemyBehind])

/-- C6 counterexample: a snapshot with a dead-center imminent bullet
(`perpDist = 0`, positive along-component, `tti` below the time budget) and
the robot well inside the arena, where the returned draft still holds
position because the shooting state is busy. -/
theorem imminent_bullet_held_when_busy :
    (∃ t, bulletIdle ∈ wBusy.bullets ∧
      assessBullet opsOne wBusy.self bulletIdle = some t ∧
      t.perpDist = 0 ∧ 0 < t.along ∧ t.tti < baseTimeThreshold wBusy.self) ∧
    wBusy.map.x < wBusy.self.x ∧ wBusy.self.x < wBusy.map.x + wBusy.map.width ∧
    wBusy.map.y < wBusy.self.y ∧ wBusy.self.y < wBusy.map.y + wBusy.map.height ∧
    (action opsOne 0 none wBusy).1.moveDirection = none := by
  refine ⟨⟨threatIdle, by simp [wBusy, wIdle], ?_, rfl, by norm_num [threatIdle], ?_⟩,
    ?_, ?_, ?_, ?_, ?_⟩
  · norm_num [assessBullet, bulletSpeed, bulletIdle, wBusy, wIdle, selfIdle, threatIdle,
      opsOne]
  · norm_num [threatIdle, baseTimeThreshold, wBusy, wIdle, selfIdle, testStats]
  · norm_num [wBusy, wIdle, selfIdle]
  · norm_num [wBusy, wIdle, selfIdle]
  · norm_num [wBusy, wIdle, selfIdle]
  · norm_num [wBusy, wIdle, selfIdle]
  · rw [action]
    norm_num [isBusyShooting, wBusy, wIdle, selfIdle]

/-- C6 (amended): for a bullet assessed with `perpDist = 0`, positive
along-component and `tti` below the time budget, the returned draft has a
non-hold `moveDirection`, provided the shooting state is not busy and the
wall-buffer filter leaves at least one escape candidate for the selected
primary threat. -/
theorem imminent_zero_perp_bullet_dodged (ops : MathOps) (rand : ℚ)
    (memIn : Option Memory) (w : World) (b : Bullet) (t : Threat)
    (hb : b ∈ w.bullets)
    (ht : assessBullet ops w.self b = some t)
    (hperp : t.perpDist = 0)
    (htti : t.tti < baseTimeThreshold w.self)
    (hspeed : 0 ≤ w.self.stats.speed)
    (hstate : isBusyShooting w.self.shootingState = false)
    (hesc : ∀ pt, primaryThreat ops w.self w.bullets = some pt →
      escapeVectors ops w (sortedThreats ops w.self w.bullets) pt ≠ []) :
    (action ops rand memIn w).1.moveDirection ≠ none := by
  have hmem : t ∈ threats ops w.self w.bullets :=
    (mem_threats ops w.self w.bullets t).mpr ⟨b, hb, ht⟩
  have hdodge : t.perpDist < baseDodgeDistance w.self := by
    rw [hperp, baseDodgeDistance]
    linarith
  obtain ⟨pt, hpt⟩ := primaryThreat_isSome ops w.self w.bullets t hmem hdodge htti
  have hne := hesc pt hpt
  obtain ⟨best, hbest⟩ : ∃ best,
      ((escapeVectors ops w (sortedThreats ops w.self w.bullets) pt).mergeSort
        fun a b => decide (b.score ≤ a.score)).head? = some best := by
    rcases hcase : (escapeVectors ops w (sortedThreats ops w.self w.bullets) pt).mergeSort
        fun a b => decide (b.score ≤ a.score) with _ | ⟨a, as⟩
    · exact absurd (List.Perm.nil_eq (hcase ▸ List.mergeSort_perm _ _)).symm hne
    · exact ⟨a, by simp [hcase]⟩
  have hlen : w.bullets.length > 0 := List.length_pos.mpr (List.ne_nil_of_mem hb)
  have hev : (evadeStage ops w).1 = some best.angle := by
    simp only [evadeStage]
    rw [if_pos hlen, hpt]
    simp only [hbest]
  obtain ⟨u, hu⟩ :=
    positionStage_isSome w rand (memIn.getD initMemory) (selectTarget w) best.angle
  have hmd : (action ops rand memIn w).1.moveDirection
      = positionStage w rand (memIn.getD initMemory) (selectTarget w) (evadeStage ops w).1 := by
    simp only [action, hstate, Bool.false_eq_true, if_false]
  rw [hmd, hev, hu]
  simp

/-- C6 witness: the concrete non-busy dead-center bullet run does move. -/
theorem imminent_zero_perp_bullet_dodged_witness :
    (action opsOne 0 none wIdle).1.moveDirection ≠ none :=
  imminent_zero_perp_bullet_dodged opsOne 0 none wIdle bulletIdle threatIdle
    (by simp [wIdle])
    (by norm_num [assessBullet, bulletSpeed, bulletIdle, wIdle, selfIdle, threatIdle, opsOne])
    rfl
    (by norm_num [threatIdle, baseTimeThreshold, wIdle, selfIdle, testStats])
    (by norm_num [wIdle, selfIdle, testStats])
    (by decide)
    (by
      intro pt hpt
      have hval : primaryThreat opsOne wIdle.self wIdle.bullets = some threatIdle := by
        norm_num [primaryThreat, sortedThreats, threats, assessBullet, bulletSpeed,
          bulletIdle, selfIdle, wIdle, threatIdle, baseDodgeDistance, baseTimeThreshold,
          testStats, List.find?, List.filterMap, opsOne]
      rw [hval] at hpt
      injection hpt with hpt
      subst hpt
      norm_num [escapeVectors, sweepOffsets_eval, List.filterMap, escapeCandidate,
        isValidEscape, wIdle, selfIdle, opsOne, threatIdle, normalizeAngle_id, jsPI,
        sortedThreats, threats, assessBullet, bulletSpeed, bulletIdle, testStats])

/-- C7 counterexample: the sweep does not generate six candidate headings. -/
theorem sweep_candidates_not_six : ¬ sweepOffsets.length = 6 := by
  rw [sweepOffsets_eval]
  simp

/-- C7 (amended): with a primary threat, the evasion stage generates exactly
seven escape-heading candidates before the wall filter, the offsets from
-90 to +90 degrees around the bullet heading of the threat in 30-degree steps. -/
theorem sweep_generates_seven (ops : MathOps) (w : World) (ts : List Threat)
    (pt : Threat) :
    sweepOffsets.length = 7 ∧
    sweepOffsets = [-(jsPI / 2), -(jsPI / 3), -(jsPI / 6), 0, jsPI / 6, jsPI / 3, jsPI / 2] ∧
    escapeVectors ops w ts pt =
      (sweepOffsets.map fun angleOffset => pt.bulletAngle + angleOffset).filterMap
        (escapeCandidate ops w ts) := by
  refine ⟨by rw [sweepOffsets_eval]; rfl, sweepOffsets_eval, ?_⟩
  rw [escapeVectors, List.filterMap_map]
  rfl

/-- C8 counterexample: on the first tick (no stored memory) a concrete
snapshot with an in-range target and `canShoot` emits no aim, because the
initial facing is `0` rather than undefined and the arc rule fires. -/
theorem first_tick_aim_suppressed :
    selectTarget wBehind = some enemyBehind ∧
    wBehind.self.canShoot = true ∧
    wBehind.getDistanceToTarget enemyBehind.x enemyBehind.y ≤ wBehind.self.range ∧
    (action opsOne 0 none wBehind).1.shoot = none := by
  refine ⟨by norm_num [selectTarget, selectStep, wBehind, enemyBehind], rfl,
    by norm_num [wBehind], ?_⟩
  rw [action]
  norm_num [evadeStage, wBehind, opsOne, selectTarget, selectStep, positionStage,
    isFalsyNum, shootStage, isBusyShooting, canShootAtAngle, normalizeAngle_id,
    initMemory, enemyBehind, jsPI, abs_le]

/-- C8 (amended): on the first tick the carried facing is the initialised
value `0` (not undefined), and the engagement gate emits the aim exactly
when the host bearing lies within a quarter turn of facing `0`. -/
theorem first_tick_facing_is_zero (ops : MathOps) (rand : ℚ) (w : World) (t : Enemy)
    (htgt : selectTarget w = some t)
    (hcs : w.self.canShoot = true)
    (hd : w.getDistanceToTarget t.x t.y ≤ w.self.range) :
    ((none : Option Memory).getD initMemory).facingDirection = 0 ∧
    (action ops rand none w).1.shoot =
      (if canShootAtAngle (w.shootAt t.x t.y) (some 0) then some (w.shootAt t.x t.y)
       else none) := by
  refine ⟨rfl, ?_⟩
  have hshoot : (action ops rand none w).1.shoot
      = shootStage w initMemory (selectTarget w) := by
    simp only [action, Option.getD]
  rw [hshoot, htgt]
  simp only [shootStage]
  rw [if_pos hcs, if_pos hd]
  have hface : initMemory.facingDirection = (0 : ℚ) := rfl
  rw [hface]

/-- C8 witness: the amended first-tick equation at a concrete snapshot. -/
theorem first_tick_facing_is_zero_witness :
    ((none : Option Memory).getD initMemory).facingDirection = 0 ∧
    (action opsOne 0 none wBehind).1.shoot =
      (if canShootAtAngle (wBehind.shootAt enemyBehind.x enemyBehind.y) (some 0)
        then some (wBehind.shootAt enemyBehind.x enemyBehind.y) else none) :=
  first_tick_facing_is_zero opsOne 0 wBehind enemyBehind
    (by norm_num [selectTarget, selectStep, wBehind, enemyBehind]) rfl
    (by norm_num [wBehind])

/-- C9 counterexample: a concrete run where the evasion stage sets the
heading `0` and the positional stage overwrites it with the bearing to the
target, because `0` is JS-falsy. -/
theorem evasion_zero_heading_overwritten :
    (evadeStage opsOne wClose).1 = some 0 ∧
    positionStage wClose 0 initMemory (selectTarget wClose) (some 0) ≠ some 0 := by
  constructor
  · rw [evadeStage]
    norm_num [wClose, wIdle, opsOne, primaryThreat, sortedThreats, threats, assessBullet,
      bulletSpeed, bulletIdle, selfIdle, testStats, baseDodgeDistance, baseTimeThreshold,
      List.find?, escapeVectors, sweepOffsets_eval, List.filterMap, escapeCandidate,
      isValidEscape, normalizeAngle_id, jsPI]
  · norm_num [positionStage, selectTarget, selectStep, wClose, wIdle, enemyBelow,
      isFalsyNum, selfIdle, testStats, canShootAtAngle, normalizeAngle_id, initMemory,
      jsPI]

/-- C9 (amended): a heading set by evasion is left unchanged by the
positional-arbitration stage whenever it is nonzero; the heading `0` is
JS-falsy and may be overwritten. -/
theorem evasion_nonzero_heading_preserved (ops : MathOps) (w : World) (rand : ℚ)
    (mem : Memory) (θ : ℚ) (_h : (evadeStage ops w).1 = some θ) (hθ : θ ≠ 0) :
    positionStage w rand mem (selectTarget w) (some θ) = some θ := by
  cases htgt : selectTarget w with
  | none => simp only [positionStage]
  | some t => simp [positionStage, isFalsyNum, hθ]

/-- C9 witness: a concrete nonzero evasion heading survives arbitration. -/
theorem evasion_nonzero_heading_preserved_witness :
    positionStage wIdle 0 initMemory (selectTarget wIdle) (some (jsPI / 6))
      = some (jsPI / 6) :=
  evasion_nonzero_heading_preserved opsShift wIdle 0 initMemory (jsPI / 6)
    (by
      rw [evadeStage]
      norm_num [wIdle, opsShift, primaryThreat, sortedThreats, threats, assessBullet,
        bulletSpeed, bulletIdle, selfIdle, testStats, baseDodgeDistance,
        baseTimeThreshold, List.find?, escapeVectors, sweepOffsets_eval,
        List.filterMap, escapeCandidate, isValidEscape, normalizeAngle_id, jsPI])
    (by norm_num [jsPI])

end SkeletonBot
